import Mathlib

/-!
Verification development for the `af-agent-config-research` scripts:
a flow-diagram renderer (`chart_script.py`), a hierarchy-tree renderer
(`chart_script_1.py`) and a mapping flattener (`script.py`).

The scripts are shallowly embedded: plotly traces become a `Trace` record
holding the fields the scripts set; Python dict lookups (which raise
`KeyError` on a missing key) become `Option`-returning lookups, and the
figure-building loops become `Except`-valued functions that stop at the
first failed lookup, exactly as the scripts would.  All coordinates are
rationals standing for the scripts' numeric literals.
-/

/-- Errors an embedded script run can surface.  `keyError` models Python's
`KeyError` raised by a failed dict lookup (it carries the missing key).
`configError` models the descriptive "configuration error" the specification
asks for; the embedded code never constructs it, it exists so that the
spec's distinction between the two can be stated. -/
inductive RenderError where
  | keyError (key : String)
  | configError (missing : String)
deriving DecidableEq

/-- A plotly scatter trace, restricted to the fields the two chart scripts
actually set.  Unset optional fields are `none`. -/
structure Trace where
  xs : List ℚ := []
  ys : List ℚ := []
  mode : String
  markerSymbol : Option String := none
  markerSize : Option ℚ := none
  markerColor : Option String := none
  markerLineColor : Option String := none
  markerLineWidth : Option ℚ := none
  lineColor : Option String := none
  lineWidth : Option ℚ := none
  text : Option (List String) := none
  textposition : Option String := none
  textFontSize : Option ℚ := none
  textFontColor : Option String := none
  name : Option String := none
  showlegend : Bool
  hoverinfo : String
  hovertext : Option (List String) := none
deriving DecidableEq

/-- Python's `str.title()`: a letter is uppercased when the previous
character is not a letter, lowercased otherwise; non-letters pass through. -/
def pyTitleGo : Bool → List Char → List Char
  | _, [] => []
  | prevAlpha, c :: cs =>
    (if c.isAlpha then (if prevAlpha then c.toLower else c.toUpper) else c)
      :: pyTitleGo c.isAlpha cs

/-- Python's `str.title()` on a string. -/
def pyTitle (s : String) : String := String.mk (pyTitleGo false s.data)

namespace ChartScript

/-- One entry of the `nodes` list of `chart_script.py`. -/
structure Node where
  id : String
  label : String
  type : String
  x : ℚ
  y : ℚ
deriving DecidableEq

/-- One entry of the `edges` list of `chart_script.py`.  `from` and `to`
are Lean keywords, hence `from_` and `to_`. -/
structure Edge where
  from_ : String
  to_ : String
  label : String
deriving DecidableEq

/-- The literal `nodes` data of `chart_script.py`. -/
def data_nodes : List Node :=
  [ ⟨"af_file", ".af File\n(JSON)", "input", 50, 200⟩,
    ⟨"validator", "Zod Schema\nValidator", "process", 200, 200⟩,
    ⟨"parser", "AF Parser", "process", 350, 200⟩,
    ⟨"memory_converter", "Memory\nConverter", "process", 500, 100⟩,
    ⟨"tool_converter", "Tool\nConverter", "process", 500, 200⟩,
    ⟨"config_converter", "Config\nConverter", "process", 500, 300⟩,
    ⟨"agent_factory", "Mastra Agent\nFactory", "process", 650, 200⟩,
    ⟨"mastra_agent", "Mastra Agent\nInstance", "output", 800, 200⟩,
    ⟨"export_serializer", "Export\nSerializer", "process", 650, 350⟩,
    ⟨"export_af", "Exported\n.af File", "output", 800, 350⟩ ]

/-- The literal `edges` data of `chart_script.py`. -/
def data_edges : List Edge :=
  [ ⟨"af_file", "validator", "Parse JSON"⟩,
    ⟨"validator", "parser", "Valid .af"⟩,
    ⟨"parser", "memory_converter", "Core Memory +\nMessages"⟩,
    ⟨"parser", "tool_converter", "Tools +\nTool Rules"⟩,
    ⟨"parser", "config_converter", "LLM Config +\nEmbedding Config"⟩,
    ⟨"memory_converter", "agent_factory", "Memory Object"⟩,
    ⟨"tool_converter", "agent_factory", "Tools Array"⟩,
    ⟨"config_converter", "agent_factory", "Model Config"⟩,
    ⟨"agent_factory", "mastra_agent", "Create Agent"⟩,
    ⟨"mastra_agent", "export_serializer", "Export Request"⟩,
    ⟨"export_serializer", "export_af", "Serialize to .af"⟩ ]

/-- `node_positions = {node["id"]: (node["x"], node["y"]) for node in nodes}`,
as a lookup function (node ids are unique in the data, so first-match lookup
agrees with the Python dict). -/
def lookupPos (ns : List Node) (nodeId : String) : Option (ℚ × ℚ) :=
  (ns.find? (fun n => decide (n.id = nodeId))).map (fun n => (n.x, n.y))

/-- The `type_colors` dict of `chart_script.py`. -/
def type_colors : List (String × String) :=
  [("input", "#1FB8CD"), ("process", "#FFC185"), ("output", "#5D878F")]

/-- The line trace one edge contributes (drawn from source to destination). -/
def lineTrace (p q : ℚ × ℚ) : Trace :=
  { xs := [p.1, q.1], ys := [p.2, q.2], mode := "lines",
    lineColor := some "#13343B", lineWidth := some 2,
    showlegend := false, hoverinfo := "skip" }

/-- The arrowhead trace one edge contributes: a `triangle-right` marker at
`source + 0.9 * (destination - source)` on both axes. -/
def arrowTrace (p q : ℚ × ℚ) : Trace :=
  { xs := [p.1 + (9 / 10) * (q.1 - p.1)], ys := [p.2 + (9 / 10) * (q.2 - p.2)],
    mode := "markers", markerSymbol := some "triangle-right",
    markerSize := some 8, markerColor := some "#13343B",
    showlegend := false, hoverinfo := "skip" }

/-- The edge loop of `chart_script.py`: per edge, the positions of both
endpoints are looked up (a missing id raises `KeyError`, the `from` side
first), then a line trace and an arrowhead trace are appended. -/
def edgeTraces (pos : String → Option (ℚ × ℚ)) : List Edge → Except RenderError (List Trace)
  | [] => .ok []
  | e :: es =>
    match pos e.from_ with
    | none => .error (.keyError e.from_)
    | some p =>
      match pos e.to_ with
      | none => .error (.keyError e.to_)
      | some q =>
        match edgeTraces pos es with
        | .error err => .error err
        | .ok rest => .ok (lineTrace p q :: arrowTrace p q :: rest)

/-- The trace one node contributes: a size-60 marker colored by its type,
labeled, named `type.title()`, with the legend shown. -/
def nodeTrace (nd : Node) (color : String) : Trace :=
  { xs := [nd.x], ys := [nd.y], mode := "markers+text",
    markerSize := some 60, markerColor := some color,
    markerLineColor := some "#13343B", markerLineWidth := some 2,
    text := some [nd.label], textposition := some "middle center",
    textFontSize := some 10, textFontColor := some "black",
    name := some (pyTitle nd.type), showlegend := true, hoverinfo := "skip" }

/-- The node loop of `chart_script.py`: per node, its type's color is looked
up in `type_colors` (a missing type raises `KeyError`) and a marker+text
trace is appended. -/
def nodeTraces (colors : List (String × String)) : List Node → Except RenderError (List Trace)
  | [] => .ok []
  | nd :: rest =>
    match colors.find? (fun pr => decide (pr.1 = nd.type)) with
    | none => .error (.keyError nd.type)
    | some pr =>
      match nodeTraces colors rest with
      | .error err => .error err
      | .ok ts => .ok (nodeTrace nd pr.2 :: ts)

/-- The legend-deduplication pass of `chart_script.py` (the `seen_types`
loop): traces whose `name` is set and non-empty keep the legend on first
occurrence of the name and have `showlegend` forced off afterwards. -/
def dedupLegend (seen : List String) : List Trace → List Trace
  | [] => []
  | t :: ts =>
    match t.name with
    | none => t :: dedupLegend seen ts
    | some n =>
      if n = "" then t :: dedupLegend seen ts
      else if seen.contains n then { t with showlegend := false } :: dedupLegend seen ts
      else t :: dedupLegend (n :: seen) ts

/-- The whole figure construction of `chart_script.py`: edge traces first
(lines behind nodes), then node traces, then the legend deduplication over
all traces. -/
def buildFlowFigure (ns : List Node) (es : List Edge) : Except RenderError (List Trace) :=
  match edgeTraces (lookupPos ns) es with
  | .error err => .error err
  | .ok et =>
    match nodeTraces type_colors ns with
    | .error err => .error err
    | .ok nt => .ok (dedupLegend [] (et ++ nt))

/-- The x-axis range set in `update_layout`. -/
def xaxis_range : ℚ × ℚ := (-20, 870)

/-- The y-axis range set in `update_layout`. -/
def yaxis_range : ℚ × ℚ := (50, 400)

/-- How many traces of a figure show a legend entry under name `n`. -/
def legendCount (n : String) (ts : List Trace) : Nat :=
  ts.countP (fun t => decide (t.name = some n) && t.showlegend)

/-- The figure `chart_script.py` builds from its literal data. -/
def flowFigure : List Trace :=
  (buildFlowFigure data_nodes data_edges).toOption.getD []

end ChartScript

namespace ChartScript1

/-- The value of one entry of the `nodes` dict of `chart_script_1.py`. -/
structure TNode where
  x : ℚ
  y : ℚ
  level : Nat
deriving DecidableEq

/-- The literal `nodes` dict of `chart_script_1.py` (insertion order kept). -/
def nodes : List (String × TNode) :=
  [ ("AgentSchema", ⟨0, 5, 0⟩),
    ("Core Fields", ⟨-3, 4, 1⟩),
    ("Configuration", ⟨-1, 4, 1⟩),
    ("Memory & Msgs", ⟨1, 4, 1⟩),
    ("Tooling", ⟨3, 4, 1⟩),
    ("Metadata", ⟨5, 4, 1⟩),
    ("agent_type", ⟨-4, 3, 2⟩),
    ("name", ⟨mkRat (-7) 2, 3, 2⟩),
    ("system", ⟨mkRat (-5) 2, 3, 2⟩),
    ("version", ⟨-2, 3, 2⟩),
    ("llm_config", ⟨mkRat (-13) 10, 3, 2⟩),
    ("embed_config", ⟨mkRat (-7) 10, 3, 2⟩),
    ("core_memory", ⟨mkRat 1 2, 3, 2⟩),
    ("messages", ⟨1, 3, 2⟩),
    ("msg_indices", ⟨mkRat 3 2, 3, 2⟩),
    ("tools", ⟨mkRat 5 2, 3, 2⟩),
    ("tool_rules", ⟨3, 3, 2⟩),
    ("tool_env_vars", ⟨mkRat 7 2, 3, 2⟩),
    ("tags", ⟨mkRat 9 2, 3, 2⟩),
    ("metadata_", ⟨5, 3, 2⟩),
    ("created_at", ⟨mkRat 11 2, 3, 2⟩),
    ("updated_at", ⟨6, 3, 2⟩) ]

/-- The literal `connections` list of `chart_script_1.py`. -/
def connections : List (String × String) :=
  [ ("AgentSchema", "Core Fields"),
    ("AgentSchema", "Configuration"),
    ("AgentSchema", "Memory & Msgs"),
    ("AgentSchema", "Tooling"),
    ("AgentSchema", "Metadata"),
    ("Core Fields", "agent_type"),
    ("Core Fields", "name"),
    ("Core Fields", "system"),
    ("Core Fields", "version"),
    ("Configuration", "llm_config"),
    ("Configuration", "embed_config"),
    ("Memory & Msgs", "core_memory"),
    ("Memory & Msgs", "messages"),
    ("Memory & Msgs", "msg_indices"),
    ("Tooling", "tools"),
    ("Tooling", "tool_rules"),
    ("Tooling", "tool_env_vars"),
    ("Metadata", "tags"),
    ("Metadata", "metadata_"),
    ("Metadata", "created_at"),
    ("Metadata", "updated_at") ]

/-- The `colors` list of `chart_script_1.py` (one color per level). -/
def colors : List String := ["#1FB8CD", "#FFC185", "#ECEBD5"]

/-- Lookup in the `nodes` dict (keys are unique in the data, so first-match
lookup agrees with the Python dict). -/
def lookupNode (m : List (String × TNode)) (nm : String) : Option TNode :=
  (m.find? (fun p => decide (p.1 = nm))).map (fun p => p.2)

/-- The line trace one (parent, child) connection contributes. -/
def connTrace (p q : ℚ × ℚ) : Trace :=
  { xs := [p.1, q.1], ys := [p.2, q.2], mode := "lines",
    lineColor := some "#5D878F", lineWidth := some 2,
    showlegend := false, hoverinfo := "skip" }

/-- The connections loop of `chart_script_1.py`: per (parent, child) pair,
both names are looked up in `nodes` (a missing name raises `KeyError`,
the parent first) and a line trace is appended. -/
def connectionTraces (m : List (String × TNode)) :
    List (String × String) → Except RenderError (List Trace)
  | [] => .ok []
  | (parent, child) :: rest =>
    match lookupNode m parent with
    | none => .error (.keyError parent)
    | some pd =>
      match lookupNode m child with
      | none => .error (.keyError child)
      | some cd =>
        match connectionTraces m rest with
        | .error err => .error err
        | .ok ts => .ok (connTrace (pd.x, pd.y) (cd.x, cd.y) :: ts)

/-- `[20 if level == 0 else 15 if level == 1 else 12][0]`. -/
def markerSizeFor (level : Nat) : ℚ :=
  if level = 0 then 20 else if level = 1 then 15 else 12

/-- `[14 if level == 0 else 11 if level == 1 else 9][0]`. -/
def fontSizeFor (level : Nat) : ℚ :=
  if level = 0 then 14 else if level = 1 then 11 else 9

/-- One iteration of the `for level in range(3)` loop of
`chart_script_1.py`: the nodes whose declared level equals `level` are
gathered (dict keys are unique, so reading the filtered entries directly
agrees with the script's per-name dict lookups) and, when the group is
non-empty, one marker+text trace is emitted with level-dependent marker
size, color and font size. -/
def levelTrace (m : List (String × TNode)) (level : Nat) : Option Trace :=
  let entries := m.filter (fun p => decide (p.2.level = level))
  if entries.isEmpty then none
  else some
    { xs := entries.map (fun p => p.2.x), ys := entries.map (fun p => p.2.y),
      mode := "markers+text",
      markerSize := some (markerSizeFor level),
      markerColor := colors.get? level,
      markerLineColor := some "white", markerLineWidth := some 2,
      text := some (entries.map (fun p => p.1)),
      textposition := some "middle center",
      textFontSize := some (fontSizeFor level),
      textFontColor := some "black",
      showlegend := false, hoverinfo := "text",
      hovertext := some (entries.map (fun p => p.1)) }

/-- The whole figure construction of `chart_script_1.py`: connection line
traces first, then one trace per non-empty level in `range(3)`. -/
def buildTreeFigure (m : List (String × TNode)) (cs : List (String × String)) :
    Except RenderError (List Trace) :=
  match connectionTraces m cs with
  | .error err => .error err
  | .ok ct => .ok (ct ++ (List.range 3).filterMap (levelTrace m))

/-- The x-axis range set by `update_xaxes`. -/
def tree_xaxis_range : ℚ × ℚ := (-5, 7)

/-- The y-axis range set by `update_yaxes` (2.5 and 5.5). -/
def tree_yaxis_range : ℚ × ℚ := (mkRat 5 2, mkRat 11 2)

/-- The figure `chart_script_1.py` builds from its literal data. -/
def treeFigure : List Trace :=
  (buildTreeFigure nodes connections).toOption.getD []

end ChartScript1

namespace Script

/-- A Python value as `script.py` uses them: either a string or a dict of
string keys in insertion order.  The script distinguishes the two with
`isinstance(-, dict)`. -/
inductive PyVal where
  | str (s : String)
  | dict (entries : List (String × PyVal))

/-- One row appended by the flattening loop of `script.py`.  The
`Description` cell receives the Python value as-is (in the data it is
always a string). -/
structure Row where
  category : String
  subcategory : String
  field : String
  description : PyVal

/-- The innermost loop: `for key, value in details.items()` appends one row
per field. -/
def innerRows (category subcategory : String) : List (String × PyVal) → List Row
  | [] => []
  | (key, value) :: rest =>
    ⟨category, subcategory, key, value⟩ :: innerRows category subcategory rest

/-- The middle loop: `for subcategory, details in items.items()`.  A dict
value recurses into the field loop; any other value yields a single row
with an empty `Field` cell. -/
def subRows (category : String) : List (String × PyVal) → List Row
  | [] => []
  | (subcategory, details) :: rest =>
    (match details with
     | .dict entries => innerRows category subcategory entries
     | .str s => [⟨category, subcategory, "", .str s⟩]) ++ subRows category rest

/-- The outer loop: `for category, items in af_to_mastra_mapping.items()`.
A non-dict top-level value contributes no rows (the `isinstance` guard has
no `else`). -/
def flattenRows : List (String × PyVal) → List Row
  | [] => []
  | (category, items) :: rest =>
    (match items with
     | .dict entries => subRows category entries
     | .str _ => []) ++ flattenRows rest

/-- The literal `af_to_mastra_mapping` of `script.py`, insertion order kept. -/
def af_to_mastra_mapping : List (String × PyVal) :=
  [ ("Component Mapping", .dict
      [ (".af Core Components", .dict
          [ ("agent_type", .str "String identifier (e.g., 'memgpt')"),
            ("name", .str "Agent display name"),
            ("description", .str "Optional agent description"),
            ("system", .str "System prompt/instructions"),
            ("llm_config", .str "Model configuration (provider, model name, parameters)"),
            ("embedding_config", .str "Embedding model settings"),
            ("core_memory", .str "List of memory blocks (personality, user info)"),
            ("messages", .str "Complete message history with metadata"),
            ("in_context_message_indices", .str "Which messages are in current context"),
            ("tools", .str "Tool definitions (schema, source code, metadata)"),
            ("tool_rules", .str "Tool execution rules and constraints"),
            ("tool_exec_environment_variables", .str "Environment variables for tools"),
            ("tags", .str "Agent tags/labels"),
            ("metadata_", .str "Additional metadata"),
            ("version", .str "Schema version"),
            ("created_at", .str "Creation timestamp"),
            ("updated_at", .str "Last update timestamp") ]),
        ("Mastra Agent Equivalent", .dict
          [ ("name", .str "Agent.name"),
            ("description", .str "Agent.description"),
            ("instructions", .str "Agent.instructions (from .af system field)"),
            ("model", .str "Agent.model (derived from llm_config)"),
            ("tools", .str "Agent.tools (converted from .af tools)"),
            ("memory", .str "Agent.memory (converted from core_memory + messages)"),
            ("workflows", .str "Not directly supported in .af"),
            ("evals", .str "Not directly supported in .af"),
            ("voice", .str "Not directly supported in .af") ]) ]),
    ("Key Differences", .dict
      [ ("Memory Management", .dict
          [ ("af_approach", .str "Explicit core_memory blocks + message history"),
            ("mastra_approach", .str "Memory class with storage adapters") ]),
        ("Tool Definitions", .dict
          [ ("af_approach", .str "Complete tool source code + JSON schema"),
            ("mastra_approach", .str "TypeScript functions with type definitions") ]),
        ("Context Management", .dict
          [ ("af_approach", .str "in_context_message_indices array"),
            ("mastra_approach", .str "Handled by memory system automatically") ]) ]) ]

/-- The `rows` list `script.py` builds and writes to the CSV. -/
def rows : List Row := flattenRows af_to_mastra_mapping

/-- `len([r for r in rows if r['Category'] == c])`, the two summary counts
printed by `script.py`. -/
def categoryCount (c : String) (rs : List Row) : Nat :=
  (rs.filter (fun r => decide (r.category = c))).length

end Script

/-! ## Helper lemmas -/

namespace ChartScript

lemma mem_dedupLegend_of_name_none {t : Trace} (hname : t.name = none) :
    ∀ (seen : List String) (ts : List Trace), t ∈ ts → t ∈ dedupLegend seen ts := by
  intro seen ts
  induction ts generalizing seen with
  | nil => intro h; exact absurd h (List.not_mem_nil t)
  | cons u us ih =>
    intro h
    rcases List.mem_cons.mp h with h | h
    · subst h
      rw [dedupLegend, hname]
      exact List.mem_cons_self _ _
    · rw [dedupLegend]
      cases hu : u.name with
      | none => exact List.mem_cons_of_mem _ (ih seen h)
      | some n =>
        by_cases hn0 : n = ""
        · simp only [hn0, if_pos rfl]
          exact List.mem_cons_of_mem _ (ih seen h)
        · by_cases hs : seen.contains n
          · simp only [if_neg hn0, if_pos hs]
            exact List.mem_cons_of_mem _ (ih seen h)
          · simp only [if_neg hn0, if_neg hs]
            exact List.mem_cons_of_mem _ (ih (n :: seen) h)

lemma arrowTrace_mem_edgeTraces {pos : String → Option (ℚ × ℚ)} :
    ∀ {es : List Edge} {ts : List Trace}, edgeTraces pos es = .ok ts →
      ∀ {e : Edge}, e ∈ es → ∀ {p q : ℚ × ℚ},
        pos e.from_ = some p → pos e.to_ = some q → arrowTrace p q ∈ ts := by
  intro es
  induction es with
  | nil => intro ts _ e he; exact absurd he (List.not_mem_nil e)
  | cons e' es' ih =>
    intro ts hok e he p q hp hq
    rw [edgeTraces] at hok
    cases hf : pos e'.from_ with
    | none => rw [hf] at hok; exact absurd hok (by simp)
    | some p' =>
      rw [hf] at hok
      cases ht : pos e'.to_ with
      | none => rw [ht] at hok; exact absurd hok (by simp)
      | some q' =>
        rw [ht] at hok
        cases hrest : edgeTraces pos es' with
        | error err => rw [hrest] at hok; exact absurd hok (by simp)
        | ok rest =>
          rw [hrest] at hok
          have hts : ts = lineTrace p' q' :: arrowTrace p' q' :: rest := by
            injection hok with h; exact h.symm
          subst hts
          rcases List.mem_cons.mp he with h | h
          · subst h
            rw [hp] at hf; injection hf with hf
            rw [hq] at ht; injection ht with ht
            subst hf; subst ht
            exact List.mem_cons_of_mem _ (List.mem_cons_self _ _)
          · exact List.mem_cons_of_mem _ (List.mem_cons_of_mem _ (ih hrest h hp hq))

lemma edgeTraces_name_none {pos : String → Option (ℚ × ℚ)} :
    ∀ {es : List Edge} {ts : List Trace}, edgeTraces pos es = .ok ts →
      ∀ t ∈ ts, t.name = none := by
  intro es
  induction es with
  | nil =>
    intro ts hok t ht
    rw [edgeTraces] at hok
    injection hok with h
    subst h; exact absurd ht (List.not_mem_nil t)
  | cons e es' ih =>
    intro ts hok t ht
    rw [edgeTraces] at hok
    cases hf : pos e.from_ with
    | none => rw [hf] at hok; exact absurd hok (by simp)
    | some p =>
      rw [hf] at hok
      cases hto : pos e.to_ with
      | none => rw [hto] at hok; exact absurd hok (by simp)
      | some q =>
        rw [hto] at hok
        cases hrest : edgeTraces pos es' with
        | error err => rw [hrest] at hok; exact absurd hok (by simp)
        | ok rest =>
          rw [hrest] at hok
          have hts : ts = lineTrace p q :: arrowTrace p q :: rest := by
            injection hok with h; exact h.symm
          subst hts
          rcases List.mem_cons.mp ht with h | h
          · subst h; rfl
          · rcases List.mem_cons.mp h with h | h
            · subst h; rfl
            · exact ih hrest t h

end ChartScript

namespace ChartScript

lemma nodeTraces_showlegend {colors : List (String × String)} :
    ∀ {ns : List Node} {ts : List Trace}, nodeTraces colors ns = .ok ts →
      ∀ t ∈ ts, t.showlegend = true := by
  intro ns
  induction ns with
  | nil =>
    intro ts hok t ht
    rw [nodeTraces] at hok
    injection hok with h
    subst h; exact absurd ht (List.not_mem_nil t)
  | cons nd rest ih =>
    intro ts hok t ht
    rw [nodeTraces] at hok
    cases hc : colors.find? (fun pr => decide (pr.1 = nd.type)) with
    | none => rw [hc] at hok; exact absurd hok (by simp)
    | some pr =>
      rw [hc] at hok
      cases hrest : nodeTraces colors rest with
      | error err => rw [hrest] at hok; exact absurd hok (by simp)
      | ok ts' =>
        rw [hrest] at hok
        have hts : ts = nodeTrace nd pr.2 :: ts' := by
          injection hok with h; exact h.symm
        subst hts
        rcases List.mem_cons.mp ht with h | h
        · subst h; rfl
        · exact ih hrest t h

lemma nodeTraces_name_mem {colors : List (String × String)} :
    ∀ {ns : List Node} {ts : List Trace}, nodeTraces colors ns = .ok ts →
      ∀ nd ∈ ns, ∃ t ∈ ts, t.name = some (pyTitle nd.type) := by
  intro ns
  induction ns with
  | nil => intro ts _ nd hnd; exact absurd hnd (List.not_mem_nil nd)
  | cons nd0 rest ih =>
    intro ts hok nd hnd
    rw [nodeTraces] at hok
    cases hc : colors.find? (fun pr => decide (pr.1 = nd0.type)) with
    | none => rw [hc] at hok; exact absurd hok (by simp)
    | some pr =>
      rw [hc] at hok
      cases hrest : nodeTraces colors rest with
      | error err => rw [hrest] at hok; exact absurd hok (by simp)
      | ok ts' =>
        rw [hrest] at hok
        have hts : ts = nodeTrace nd0 pr.2 :: ts' := by
          injection hok with h; exact h.symm
        subst hts
        rcases List.mem_cons.mp hnd with h | h
        · subst h
          exact ⟨nodeTrace nd pr.2, List.mem_cons_self _ _, rfl⟩
        · obtain ⟨t, htm, htn⟩ := ih hrest nd h
          exact ⟨t, List.mem_cons_of_mem _ htm, htn⟩

lemma nodeTraces_found {colors : List (String × String)} :
    ∀ {ns : List Node} {ts : List Trace}, nodeTraces colors ns = .ok ts →
      ∀ nd ∈ ns, (colors.find? (fun pr => decide (pr.1 = nd.type))).isSome := by
  intro ns
  induction ns with
  | nil => intro ts _ nd hnd; exact absurd hnd (List.not_mem_nil nd)
  | cons nd0 rest ih =>
    intro ts hok nd hnd
    rw [nodeTraces] at hok
    cases hc : colors.find? (fun pr => decide (pr.1 = nd0.type)) with
    | none => rw [hc] at hok; exact absurd hok (by simp)
    | some pr =>
      rw [hc] at hok
      cases hrest : nodeTraces colors rest with
      | error err => rw [hrest] at hok; exact absurd hok (by simp)
      | ok ts' =>
        rcases List.mem_cons.mp hnd with h | h
        · subst h; rw [hc]; rfl
        · exact ih hrest nd h

lemma edgeTraces_error_shape {pos : String → Option (ℚ × ℚ)} :
    ∀ {es : List Edge} {err : RenderError}, edgeTraces pos es = .error err →
      ∃ k, err = .keyError k := by
  intro es
  induction es with
  | nil => intro err h; rw [edgeTraces] at h; exact absurd h (by simp)
  | cons e es' ih =>
    intro err h
    rw [edgeTraces] at h
    cases hf : pos e.from_ with
    | none =>
      rw [hf] at h
      injection h with h
      exact ⟨e.from_, h.symm⟩
    | some p =>
      rw [hf] at h
      cases ht : pos e.to_ with
      | none =>
        rw [ht] at h
        injection h with h
        exact ⟨e.to_, h.symm⟩
      | some q =>
        rw [ht] at h
        cases hrest : edgeTraces pos es' with
        | error err' =>
          rw [hrest] at h
          injection h with h
          subst h; exact ih hrest
        | ok rest => rw [hrest] at h; exact absurd h (by simp)

lemma nodeTraces_error_shape {colors : List (String × String)} :
    ∀ {ns : List Node} {err : RenderError}, nodeTraces colors ns = .error err →
      ∃ k, err = .keyError k := by
  intro ns
  induction ns with
  | nil => intro err h; rw [nodeTraces] at h; exact absurd h (by simp)
  | cons nd rest ih =>
    intro err h
    rw [nodeTraces] at h
    cases hc : colors.find? (fun pr => decide (pr.1 = nd.type)) with
    | none =>
      rw [hc] at h
      injection h with h
      exact ⟨nd.type, h.symm⟩
    | some pr =>
      rw [hc] at h
      cases hrest : nodeTraces colors rest with
      | error err' =>
        rw [hrest] at h
        injection h with h
        subst h; exact ih hrest
      | ok ts => rw [hrest] at h; exact absurd h (by simp)

lemma edgeTraces_error_of_missing {pos : String → Option (ℚ × ℚ)} :
    ∀ {es : List Edge}, (∃ e ∈ es, pos e.from_ = none ∨ pos e.to_ = none) →
      ∃ k, edgeTraces pos es = .error (.keyError k) ∧ pos k = none := by
  intro es
  induction es with
  | nil => intro ⟨e, he, _⟩; exact absurd he (List.not_mem_nil e)
  | cons e0 es' ih =>
    intro ⟨e, he, hbad⟩
    cases hf : pos e0.from_ with
    | none => exact ⟨e0.from_, by rw [edgeTraces, hf], hf⟩
    | some p =>
      cases ht : pos e0.to_ with
      | none => exact ⟨e0.to_, by rw [edgeTraces, hf, ht], ht⟩
      | some q =>
        have hes' : ∃ e ∈ es', pos e.from_ = none ∨ pos e.to_ = none := by
          rcases List.mem_cons.mp he with h | h
          · subst h
            rcases hbad with hb | hb
            · rw [hf] at hb; exact absurd hb (by simp)
            · rw [ht] at hb; exact absurd hb (by simp)
          · exact ⟨e, h, hbad⟩
        obtain ⟨k, hk, hkn⟩ := ih hes'
        exact ⟨k, by rw [edgeTraces, hf, ht, hk], hkn⟩

end ChartScript

namespace ChartScript1

lemma connectionTraces_error_shape {m : List (String × TNode)} :
    ∀ {cs : List (String × String)} {err : RenderError},
      connectionTraces m cs = .error err → ∃ k, err = .keyError k := by
  intro cs
  induction cs with
  | nil => intro err h; rw [connectionTraces] at h; exact absurd h (by simp)
  | cons pc rest ih =>
    intro err h
    rw [connectionTraces] at h
    cases hp : lookupNode m pc.1 with
    | none =>
      rw [hp] at h
      injection h with h
      exact ⟨pc.1, h.symm⟩
    | some pd =>
      rw [hp] at h
      cases hc : lookupNode m pc.2 with
      | none =>
        rw [hc] at h
        injection h with h
        exact ⟨pc.2, h.symm⟩
      | some cd =>
        rw [hc] at h
        cases hrest : connectionTraces m rest with
        | error err' =>
          rw [hrest] at h
          injection h with h
          subst h; exact ih hrest
        | ok ts => rw [hrest] at h; exact absurd h (by simp)

lemma connectionTraces_error_of_missing {m : List (String × TNode)} :
    ∀ {cs : List (String × String)},
      (∃ pc ∈ cs, lookupNode m pc.1 = none ∨ lookupNode m pc.2 = none) →
      ∃ k, connectionTraces m cs = .error (.keyError k) ∧ lookupNode m k = none := by
  intro cs
  induction cs with
  | nil => intro ⟨pc, hpc, _⟩; exact absurd hpc (List.not_mem_nil pc)
  | cons pc0 rest ih =>
    intro ⟨pc, hpc, hbad⟩
    cases hp : lookupNode m pc0.1 with
    | none => exact ⟨pc0.1, by rw [connectionTraces, hp], hp⟩
    | some pd =>
      cases hc : lookupNode m pc0.2 with
      | none => exact ⟨pc0.2, by rw [connectionTraces, hp, hc], hc⟩
      | some cd =>
        have hrest' : ∃ pc ∈ rest, lookupNode m pc.1 = none ∨ lookupNode m pc.2 = none := by
          rcases List.mem_cons.mp hpc with h | h
          · subst h
            rcases hbad with hb | hb
            · rw [hp] at hb; exact absurd hb (by simp)
            · rw [hc] at hb; exact absurd hb (by simp)
          · exact ⟨pc, h, hbad⟩
        obtain ⟨k, hk, hkn⟩ := ih hrest'
        exact ⟨k, by rw [connectionTraces, hp, hc, hk], hkn⟩

end ChartScript1

namespace ChartScript

lemma pyTitle_ne_empty {s : String} (hs : s ≠ "") : pyTitle s ≠ "" := by
  cases s with
  | mk data =>
    cases data with
    | nil => exact absurd rfl hs
    | cons c cs =>
      intro h
      have hd := congrArg String.data h
      simp only [pyTitle, pyTitleGo] at hd
      exact absurd hd (by simp)

lemma type_colors_found_ne_empty {c : String}
    (h : (type_colors.find? (fun pr => decide (pr.1 = c))).isSome) : c ≠ "" := by
  intro hc
  subst hc
  revert h
  decide

lemma legendCount_cons (n : String) (t : Trace) (ts : List Trace) :
    legendCount n (t :: ts) =
      legendCount n ts + if decide (t.name = some n) && t.showlegend then 1 else 0 := by
  rw [legendCount, legendCount, List.countP_cons]

lemma legendCount_dedupLegend {n : String} (hn : n ≠ "") :
    ∀ (ts : List Trace) (seen : List String),
      (∀ t ∈ ts, t.name = some n → t.showlegend = true) →
      legendCount n (dedupLegend seen ts) =
        if seen.contains n then 0
        else if ts.any (fun t => decide (t.name = some n)) then 1 else 0 := by
  intro ts
  induction ts with
  | nil =>
    intro seen _
    simp [legendCount, dedupLegend]
  | cons t ts ih =>
    intro seen hall
    have hall' : ∀ u ∈ ts, u.name = some n → u.showlegend = true :=
      fun u hu => hall u (List.mem_cons_of_mem _ hu)
    rw [dedupLegend]
    split
    case h_1 hname =>
      rw [legendCount_cons, hname]
      rw [ih seen hall']
      rw [List.any_cons, hname]
      simp
    case h_2 mN hname =>
      by_cases hm : mN = ""
      · rw [if_pos hm]
        have hne : ¬(t.name = some n) := by
          rw [hname, hm]
          intro hcon
          injection hcon with hcon
          exact hn hcon.symm
        rw [legendCount_cons, ih seen hall', List.any_cons]
        simp [hne]
      · rw [if_neg hm]
        by_cases hsm : seen.contains mN = true
        · rw [if_pos hsm]
          rw [legendCount_cons, ih seen hall']
          by_cases hsn : seen.contains n = true
          · rw [if_pos hsn, if_pos hsn]
            simp
          · rw [if_neg hsn, if_neg hsn]
            have hmn : mN ≠ n := fun h => hsn (h ▸ hsm)
            have hne : ¬(({ t with showlegend := false } : Trace).name = some n) := by
              show ¬(t.name = some n)
              rw [hname]
              intro hcon
              injection hcon with hcon
              exact hmn hcon
            rw [List.any_cons, hname]
            simp [hne, hmn]
        · rw [if_neg hsm]
          by_cases hmn : mN = n
          · subst hmn
            have hsl : t.showlegend = true := hall t (List.mem_cons_self _ _) hname
            rw [legendCount_cons, hname, ih (mN :: seen) hall']
            have hc1 : (mN :: seen).contains mN = true := by
              rw [List.contains_cons]
              simp
            rw [if_pos hc1, if_neg hsm]
            rw [List.any_cons, hname]
            simp [hsl]
          · have hne : ¬(t.name = some n) := by
              rw [hname]
              intro hcon
              injection hcon with hcon
              exact hmn hcon
            rw [legendCount_cons, ih (mN :: seen) hall']
            have hc : ((mN :: seen).contains n) = seen.contains n := by
              rw [List.contains_cons]
              have : (n == mN) = false := beq_eq_false_iff_ne.mpr (fun h => hmn h.symm)
              rw [this]
              simp
            rw [hc]
            rw [List.any_cons, hname]
            simp [hne, hmn]

end ChartScript

namespace ChartScript

lemma mem_dedupLegend_shape :
    ∀ {ts : List Trace} {seen : List String} {t : Trace}, t ∈ dedupLegend seen ts →
      ∃ t0 ∈ ts, t.markerSymbol = t0.markerSymbol ∧ t.mode = t0.mode := by
  intro ts
  induction ts with
  | nil =>
    intro seen t ht
    rw [dedupLegend] at ht
    exact absurd ht (List.not_mem_nil t)
  | cons u us ih =>
    intro seen t ht
    rw [dedupLegend] at ht
    cases hu : u.name with
    | none =>
      simp only [hu] at ht
      rcases List.mem_cons.mp ht with h | h
      · subst h; exact ⟨t, List.mem_cons_self _ _, rfl, rfl⟩
      · obtain ⟨t0, h0, hsy, hmo⟩ := ih h
        exact ⟨t0, List.mem_cons_of_mem _ h0, hsy, hmo⟩
    | some nm =>
      simp only [hu] at ht
      by_cases h0 : nm = ""
      · rw [if_pos h0] at ht
        rcases List.mem_cons.mp ht with h | h
        · subst h; exact ⟨t, List.mem_cons_self _ _, rfl, rfl⟩
        · obtain ⟨t0, h0m, hsy, hmo⟩ := ih h
          exact ⟨t0, List.mem_cons_of_mem _ h0m, hsy, hmo⟩
      · rw [if_neg h0] at ht
        by_cases hs : seen.contains nm = true
        · rw [if_pos hs] at ht
          rcases List.mem_cons.mp ht with h | h
          · subst h; exact ⟨u, List.mem_cons_self _ _, rfl, rfl⟩
          · obtain ⟨t0, h0m, hsy, hmo⟩ := ih h
            exact ⟨t0, List.mem_cons_of_mem _ h0m, hsy, hmo⟩
        · rw [if_neg hs] at ht
          rcases List.mem_cons.mp ht with h | h
          · subst h; exact ⟨t, List.mem_cons_self _ _, rfl, rfl⟩
          · obtain ⟨t0, h0m, hsy, hmo⟩ := ih h
            exact ⟨t0, List.mem_cons_of_mem _ h0m, hsy, hmo⟩

lemma mem_edgeTraces_shape {pos : String → Option (ℚ × ℚ)} :
    ∀ {es : List Edge} {ts : List Trace}, edgeTraces pos es = .ok ts →
      ∀ t ∈ ts, ∃ p q, t = lineTrace p q ∨ t = arrowTrace p q := by
  intro es
  induction es with
  | nil =>
    intro ts hok t ht
    rw [edgeTraces] at hok
    injection hok with h
    subst h; exact absurd ht (List.not_mem_nil t)
  | cons e es' ih =>
    intro ts hok t ht
    rw [edgeTraces] at hok
    cases hf : pos e.from_ with
    | none => rw [hf] at hok; exact absurd hok (by simp)
    | some p =>
      rw [hf] at hok
      cases hto : pos e.to_ with
      | none => rw [hto] at hok; exact absurd hok (by simp)
      | some q =>
        rw [hto] at hok
        cases hrest : edgeTraces pos es' with
        | error err => rw [hrest] at hok; exact absurd hok (by simp)
        | ok rest =>
          rw [hrest] at hok
          have hts : ts = lineTrace p q :: arrowTrace p q :: rest := by
            injection hok with h; exact h.symm
          subst hts
          rcases List.mem_cons.mp ht with h | h
          · exact ⟨p, q, Or.inl h⟩
          · rcases List.mem_cons.mp h with h | h
            · exact ⟨p, q, Or.inr h⟩
            · exact ih hrest t h

lemma mem_nodeTraces_shape {colors : List (String × String)} :
    ∀ {ns : List Node} {ts : List Trace}, nodeTraces colors ns = .ok ts →
      ∀ t ∈ ts, ∃ nd color, t = nodeTrace nd color := by
  intro ns
  induction ns with
  | nil =>
    intro ts hok t ht
    rw [nodeTraces] at hok
    injection hok with h
    subst h; exact absurd ht (List.not_mem_nil t)
  | cons nd rest ih =>
    intro ts hok t ht
    rw [nodeTraces] at hok
    cases hc : colors.find? (fun pr => decide (pr.1 = nd.type)) with
    | none => rw [hc] at hok; exact absurd hok (by simp)
    | some pr =>
      rw [hc] at hok
      cases hrest : nodeTraces colors rest with
      | error err => rw [hrest] at hok; exact absurd hok (by simp)
      | ok ts' =>
        rw [hrest] at hok
        have hts : ts = nodeTrace nd pr.2 :: ts' := by
          injection hok with h; exact h.symm
        subst hts
        rcases List.mem_cons.mp ht with h | h
        · exact ⟨nd, pr.2, h⟩
        · exact ih hrest t h

end ChartScript

/-! ## Claim theorems -/

/-- C3: the Mapping Flattener's output order mirrors the input declaration
order exactly — flattening is an append-homomorphism at every nesting level
(so output blocks follow input key order), and on the claim's example
`A -> B -> (f1, f2)` it yields the row for `f1` and then the row for `f2`,
in that exact order. -/
theorem flatten_preserves_order :
    Script.flattenRows
        [("A", .dict [("B", .dict [("f1", .str "d1"), ("f2", .str "d2")])])] =
      [⟨"A", "B", "f1", .str "d1"⟩, ⟨"A", "B", "f2", .str "d2"⟩] ∧
    (∀ xs ys : List (String × Script.PyVal),
      Script.flattenRows (xs ++ ys) = Script.flattenRows xs ++ Script.flattenRows ys) ∧
    (∀ (c : String) (xs ys : List (String × Script.PyVal)),
      Script.subRows c (xs ++ ys) = Script.subRows c xs ++ Script.subRows c ys) ∧
    (∀ (c s : String) (xs ys : List (String × Script.PyVal)),
      Script.innerRows c s (xs ++ ys) = Script.innerRows c s xs ++ Script.innerRows c s ys) := by
  refine ⟨rfl, ?_, ?_, ?_⟩
  · intro xs ys
    induction xs with
    | nil => rfl
    | cons hd tl ih =>
      cases hd with
      | mk category items =>
        simp only [List.cons_append, Script.flattenRows, List.append_eq, ih, List.append_assoc]
  · intro c xs ys
    induction xs with
    | nil => rfl
    | cons hd tl ih =>
      cases hd with
      | mk subcategory details =>
        simp only [List.cons_append, Script.subRows, List.append_eq, ih, List.append_assoc]
  · intro c s xs ys
    induction xs with
    | nil => rfl
    | cons hd tl ih =>
      cases hd with
      | mk key value =>
        simp only [List.cons_append, Script.innerRows, List.append_eq, ih]

/-- C5: for every subcategory whose value is a bare description string rather
than a nested mapping, the flattener emits exactly one row with an empty Field
cell and the string as the Description — stated universally over the category
name, the subcategory name, the string and the surrounding subcategories (the
bare-string entry contributes exactly its one row to the middle loop's
output), and instantiated at the claim's `{"A": {"B": "plain description"}}`
example. -/
theorem flatten_bare_string :
    (∀ (c s str : String) (rest : List (String × Script.PyVal)),
      Script.subRows c ((s, .str str) :: rest) =
        ⟨c, s, "", .str str⟩ :: Script.subRows c rest) ∧
    (∀ c s str : String,
      Script.flattenRows [(c, .dict [(s, .str str)])] = [⟨c, s, "", .str str⟩]) ∧
    Script.flattenRows [("A", .dict [("B", .str "plain description")])] =
      [⟨"A", "B", "", .str "plain description"⟩] :=
  ⟨fun _ _ _ _ => rfl, fun _ _ _ => rfl, rfl⟩

/-- C8: the fixed axis ranges of both renderers contain every node coordinate
of the supplied data strictly (nonzero margin on every side): the flow
renderer's nodes lie strictly inside [-20, 870] x [50, 400] and the tree
renderer's nodes strictly inside [-5, 7] x [2.5, 5.5]. -/
theorem axis_ranges_contain_nodes :
    (ChartScript.data_nodes.all fun n =>
      decide (ChartScript.xaxis_range.1 < n.x) && decide (n.x < ChartScript.xaxis_range.2) &&
      decide (ChartScript.yaxis_range.1 < n.y) && decide (n.y < ChartScript.yaxis_range.2)) = true ∧
    (ChartScript1.nodes.all fun p =>
      decide (ChartScript1.tree_xaxis_range.1 < p.2.x) &&
      decide (p.2.x < ChartScript1.tree_xaxis_range.2) &&
      decide (ChartScript1.tree_yaxis_range.1 < p.2.y) &&
      decide (p.2.y < ChartScript1.tree_yaxis_range.2)) = true :=
  ⟨by decide, by decide⟩

/-- C9: both renderers are deterministic — the embedded figure construction is
a pure function of the input data, so two runs on identical inputs produce
identical node and edge geometry (trace lists, including coordinates, colors
and arrowhead positions). -/
theorem renderers_deterministic :
    (∀ (ns : List ChartScript.Node) (es : List ChartScript.Edge),
      ChartScript.buildFlowFigure ns es = ChartScript.buildFlowFigure ns es) ∧
    (∀ (m : List (String × ChartScript1.TNode)) (cs : List (String × String)),
      ChartScript1.buildTreeFigure m cs = ChartScript1.buildTreeFigure m cs) :=
  ⟨fun _ _ => rfl, fun _ _ => rfl⟩

/-- C10: every flattened row's Category is one of the two top-level keys, so
the two printed summary counts partition the rows and sum to the total number
of data rows written to the CSV. -/
theorem summary_counts_partition :
    (Script.rows.all fun r =>
      decide (r.category = "Component Mapping") ||
      decide (r.category = "Key Differences")) = true ∧
    Script.categoryCount "Component Mapping" Script.rows +
      Script.categoryCount "Key Differences" Script.rows = Script.rows.length := by
  exact ⟨rfl, rfl⟩

/-- C1: in the flow-diagram renderer, for every edge whose endpoints resolve
to positions p = (x1, y1) and q = (x2, y2), the built figure contains the
edge's arrowhead marker trace placed exactly at
(x1 + 0.9*(x2 - x1), y1 + 0.9*(y2 - y1)). -/
theorem arrowhead_position (ns : List ChartScript.Node) (es : List ChartScript.Edge)
    (f : List Trace) (hbuild : ChartScript.buildFlowFigure ns es = .ok f)
    (e : ChartScript.Edge) (he : e ∈ es) (p q : ℚ × ℚ)
    (hp : ChartScript.lookupPos ns e.from_ = some p)
    (hq : ChartScript.lookupPos ns e.to_ = some q) :
    ∃ t ∈ f, t.markerSymbol = some "triangle-right" ∧
      t.xs = [p.1 + (9 / 10) * (q.1 - p.1)] ∧
      t.ys = [p.2 + (9 / 10) * (q.2 - p.2)] := by
  unfold ChartScript.buildFlowFigure at hbuild
  cases het : ChartScript.edgeTraces (ChartScript.lookupPos ns) es with
  | error err => simp only [het] at hbuild; exact absurd hbuild (by simp)
  | ok et =>
    simp only [het] at hbuild
    cases hnt : ChartScript.nodeTraces ChartScript.type_colors ns with
    | error err => simp only [hnt] at hbuild; exact absurd hbuild (by simp)
    | ok nt =>
      simp only [hnt] at hbuild
      have hf : f = ChartScript.dedupLegend [] (et ++ nt) := by
        injection hbuild with h
        exact h.symm
      subst hf
      have harr : ChartScript.arrowTrace p q ∈ et :=
        ChartScript.arrowTrace_mem_edgeTraces het he hp hq
      have hmem : ChartScript.arrowTrace p q ∈ et ++ nt := List.mem_append_left _ harr
      have hded := ChartScript.mem_dedupLegend_of_name_none rfl [] (et ++ nt) hmem
      exact ⟨ChartScript.arrowTrace p q, hded, rfl, rfl, rfl⟩

/-- Witness for C1: applied to the literal data's first edge, from "af_file"
at (50, 200) to "validator" at (200, 200). -/
theorem arrowhead_position_witness :
    ∃ t ∈ ChartScript.flowFigure, t.markerSymbol = some "triangle-right" ∧
      t.xs = [(50 : ℚ) + (9 / 10) * (200 - 50)] ∧
      t.ys = [(200 : ℚ) + (9 / 10) * (200 - 200)] :=
  arrowhead_position ChartScript.data_nodes ChartScript.data_edges
    ChartScript.flowFigure rfl ⟨"af_file", "validator", "Parse JSON"⟩ (by decide)
    (50, 200) (200, 200) rfl rfl

/-- C2 (corrected): an input in which an edge (flow renderer) or a
parent-child connection (tree renderer) references a missing node name makes
the embedded renderer fail — the edge is not silently dropped — but the
failure is the `KeyError` of the underlying dict lookup (which carries the
missing name), never the descriptive configuration error the claim asks
for. -/
theorem missing_reference_raises (ns : List ChartScript.Node)
    (es : List ChartScript.Edge) (m : List (String × ChartScript1.TNode))
    (cs : List (String × String))
    (hflow : ∃ e ∈ es, ChartScript.lookupPos ns e.from_ = none ∨
      ChartScript.lookupPos ns e.to_ = none)
    (htree : ∃ pc ∈ cs, ChartScript1.lookupNode m pc.1 = none ∨
      ChartScript1.lookupNode m pc.2 = none) :
    (∃ k, ChartScript.buildFlowFigure ns es = .error (.keyError k) ∧
      ChartScript.lookupPos ns k = none) ∧
    (∃ k, ChartScript1.buildTreeFigure m cs = .error (.keyError k) ∧
      ChartScript1.lookupNode m k = none) ∧
    (∀ s, ChartScript.buildFlowFigure ns es ≠ .error (.configError s)) ∧
    (∀ s, ChartScript1.buildTreeFigure m cs ≠ .error (.configError s)) := by
  obtain ⟨k1, hk1, hk1n⟩ := ChartScript.edgeTraces_error_of_missing hflow
  obtain ⟨k2, hk2, hk2n⟩ := ChartScript1.connectionTraces_error_of_missing htree
  refine ⟨⟨k1, ?_, hk1n⟩, ⟨k2, ?_, hk2n⟩, ?_, ?_⟩
  · unfold ChartScript.buildFlowFigure
    rw [hk1]
  · unfold ChartScript1.buildTreeFigure
    rw [hk2]
  · intro s hcon
    unfold ChartScript.buildFlowFigure at hcon
    cases het : ChartScript.edgeTraces (ChartScript.lookupPos ns) es with
    | error err =>
      simp only [het] at hcon
      obtain ⟨k, hk⟩ := ChartScript.edgeTraces_error_shape het
      subst hk
      injection hcon with h
      exact absurd h (by simp)
    | ok et =>
      simp only [het] at hcon
      cases hnt : ChartScript.nodeTraces ChartScript.type_colors ns with
      | error err =>
        simp only [hnt] at hcon
        obtain ⟨k, hk⟩ := ChartScript.nodeTraces_error_shape hnt
        subst hk
        injection hcon with h
        exact absurd h (by simp)
      | ok nt =>
        simp only [hnt] at hcon
        exact absurd hcon (by simp)
  · intro s hcon
    unfold ChartScript1.buildTreeFigure at hcon
    cases hct : ChartScript1.connectionTraces m cs with
    | error err =>
      simp only [hct] at hcon
      obtain ⟨k, hk⟩ := ChartScript1.connectionTraces_error_shape hct
      subst hk
      injection hcon with h
      exact absurd h (by simp)
    | ok ct =>
      simp only [hct] at hcon
      exact absurd hcon (by simp)

/-- Witness for C2: a one-node flow input whose edge targets the undeclared
"ghost", and a one-node tree input whose connection targets the undeclared
"ghost". -/
theorem missing_reference_raises_witness :
    (∃ k, ChartScript.buildFlowFigure [⟨"a", "A", "input", 0, 0⟩]
        [⟨"a", "ghost", "x"⟩] = .error (.keyError k) ∧
      ChartScript.lookupPos [⟨"a", "A", "input", 0, 0⟩] k = none) ∧
    (∃ k, ChartScript1.buildTreeFigure [("r", ⟨0, 0, 0⟩)] [("r", "ghost")] =
        .error (.keyError k) ∧
      ChartScript1.lookupNode [("r", ⟨0, 0, 0⟩)] k = none) ∧
    (∀ s, ChartScript.buildFlowFigure [⟨"a", "A", "input", 0, 0⟩]
        [⟨"a", "ghost", "x"⟩] ≠ .error (.configError s)) ∧
    (∀ s, ChartScript1.buildTreeFigure [("r", ⟨0, 0, 0⟩)] [("r", "ghost")] ≠
      .error (.configError s)) :=
  missing_reference_raises _ _ _ _
    ⟨⟨"a", "ghost", "x"⟩, by decide, Or.inr rfl⟩
    ⟨("r", "ghost"), by decide, Or.inr rfl⟩

/-- C2 counterexample: at a concrete input whose single edge targets the
undeclared node "ghost", the flow renderer's failure is the `KeyError` of the
dict lookup, which is not the configuration-error form the claim requires. -/
theorem missing_reference_counterexample :
    ChartScript.buildFlowFigure [⟨"a", "A", "input", 0, 0⟩] [⟨"a", "ghost", "x"⟩] =
      .error (.keyError "ghost") ∧
    RenderError.keyError "ghost" ≠ RenderError.configError "ghost" :=
  ⟨rfl, by decide⟩

/-- C4: in the flow-diagram renderer, legend entries are deduplicated per
category with the first occurrence winning: whenever at least one node carries
a category tag c, the built figure shows exactly one legend entry under the
capitalized form `pyTitle c` of the tag (e.g. "Process" for "process"). -/
theorem legend_one_entry_per_category (ns : List ChartScript.Node)
    (es : List ChartScript.Edge) (f : List Trace) (c : String)
    (hbuild : ChartScript.buildFlowFigure ns es = .ok f)
    (hc : ∃ nd ∈ ns, nd.type = c) :
    ChartScript.legendCount (pyTitle c) f = 1 := by
  unfold ChartScript.buildFlowFigure at hbuild
  cases het : ChartScript.edgeTraces (ChartScript.lookupPos ns) es with
  | error err => simp only [het] at hbuild; exact absurd hbuild (by simp)
  | ok et =>
    simp only [het] at hbuild
    cases hnt : ChartScript.nodeTraces ChartScript.type_colors ns with
    | error err => simp only [hnt] at hbuild; exact absurd hbuild (by simp)
    | ok nt =>
      simp only [hnt] at hbuild
      have hf : f = ChartScript.dedupLegend [] (et ++ nt) := by
        injection hbuild with h
        exact h.symm
      subst hf
      obtain ⟨nd, hnd, hndc⟩ := hc
      subst hndc
      have hfound := ChartScript.nodeTraces_found hnt nd hnd
      have hcne : nd.type ≠ "" := ChartScript.type_colors_found_ne_empty hfound
      have hne : pyTitle nd.type ≠ "" := ChartScript.pyTitle_ne_empty hcne
      have hall : ∀ t ∈ et ++ nt, t.name = some (pyTitle nd.type) →
          t.showlegend = true := by
        intro t ht hname
        rcases List.mem_append.mp ht with h | h
        · have hnone := ChartScript.edgeTraces_name_none het t h
          rw [hnone] at hname
          exact absurd hname (by simp)
        · exact ChartScript.nodeTraces_showlegend hnt t h
      rw [ChartScript.legendCount_dedupLegend hne (et ++ nt) [] hall]
      obtain ⟨t, htm, htn⟩ := ChartScript.nodeTraces_name_mem hnt nd hnd
      have hany : ((et ++ nt).any fun u => decide (u.name = some (pyTitle nd.type))) = true := by
        rw [List.any_eq_true]
        exact ⟨t, List.mem_append_right _ htm, by simp [htn]⟩
      rw [if_neg (by simp), if_pos hany]

/-- Witness for C4: the literal data has six "process" nodes and the built
figure shows exactly one "Process" legend entry. -/
theorem legend_one_entry_per_category_witness :
    ChartScript.legendCount (pyTitle "process") ChartScript.flowFigure = 1 :=
  legend_one_entry_per_category ChartScript.data_nodes ChartScript.data_edges
    ChartScript.flowFigure "process" rfl
    ⟨⟨"validator", "Zod Schema\nValidator", "process", 200, 200⟩, by decide, rfl⟩

/-- C6: in the hierarchy-tree renderer, a node's marker size and font size are
fully determined by its declared level, independent of its position in the
mapping: the node's name lands in the trace of its own level, whose marker and
font sizes are the level's tier — (20, 14) for level 0, (15, 11) for level 1,
(12, 9) for level 2 — and the three tiers are pairwise distinct. -/
theorem level_tier_determined (m : List (String × ChartScript1.TNode))
    (nm : String) (d : ChartScript1.TNode) (hmem : (nm, d) ∈ m)
    (h3 : d.level < 3) :
    ∃ t, ChartScript1.levelTrace m d.level = some t ∧
      nm ∈ t.text.getD [] ∧
      t.markerSize = some (ChartScript1.markerSizeFor d.level) ∧
      t.textFontSize = some (ChartScript1.fontSizeFor d.level) ∧
      ((d.level = 0 ∧ t.markerSize = some 20 ∧ t.textFontSize = some 14) ∨
       (d.level = 1 ∧ t.markerSize = some 15 ∧ t.textFontSize = some 11) ∨
       (d.level = 2 ∧ t.markerSize = some 12 ∧ t.textFontSize = some 9)) ∧
      (ChartScript1.markerSizeFor 0 ≠ ChartScript1.markerSizeFor 1 ∧
       ChartScript1.markerSizeFor 0 ≠ ChartScript1.markerSizeFor 2 ∧
       ChartScript1.markerSizeFor 1 ≠ ChartScript1.markerSizeFor 2 ∧
       ChartScript1.fontSizeFor 0 ≠ ChartScript1.fontSizeFor 1 ∧
       ChartScript1.fontSizeFor 0 ≠ ChartScript1.fontSizeFor 2 ∧
       ChartScript1.fontSizeFor 1 ≠ ChartScript1.fontSizeFor 2) := by
  have hfe : (nm, d) ∈ m.filter (fun p => decide (p.2.level = d.level)) :=
    List.mem_filter.mpr ⟨hmem, by simp⟩
  have hempty : (m.filter (fun p => decide (p.2.level = d.level))).isEmpty = false := by
    cases hE : m.filter (fun p => decide (p.2.level = d.level)) with
    | nil => rw [hE] at hfe; exact absurd hfe (List.not_mem_nil _)
    | cons a as => rfl
  have key : ChartScript1.levelTrace m d.level = some
      { xs := (m.filter (fun p => decide (p.2.level = d.level))).map (fun p => p.2.x),
        ys := (m.filter (fun p => decide (p.2.level = d.level))).map (fun p => p.2.y),
        mode := "markers+text",
        markerSize := some (ChartScript1.markerSizeFor d.level),
        markerColor := ChartScript1.colors.get? d.level,
        markerLineColor := some "white", markerLineWidth := some 2,
        text := some ((m.filter (fun p => decide (p.2.level = d.level))).map (fun p => p.1)),
        textposition := some "middle center",
        textFontSize := some (ChartScript1.fontSizeFor d.level),
        textFontColor := some "black",
        showlegend := false, hoverinfo := "text",
        hovertext := some ((m.filter (fun p => decide (p.2.level = d.level))).map (fun p => p.1)) } := by
    simp only [ChartScript1.levelTrace, hempty, Bool.false_eq_true, if_false]
  refine ⟨_, key, ?_, rfl, rfl, ?_, by refine ⟨?_, ?_, ?_, ?_, ?_, ?_⟩ <;> decide⟩
  · exact List.mem_map.mpr ⟨(nm, d), hfe, rfl⟩
  · rcases (by omega : d.level = 0 ∨ d.level = 1 ∨ d.level = 2) with h | h | h
    · refine Or.inl ⟨h, ?_, ?_⟩ <;>
        simp [h, ChartScript1.markerSizeFor, ChartScript1.fontSizeFor]
    · refine Or.inr (Or.inl ⟨h, ?_, ?_⟩) <;>
        simp [h, ChartScript1.markerSizeFor, ChartScript1.fontSizeFor]
    · refine Or.inr (Or.inr ⟨h, ?_, ?_⟩) <;>
        simp [h, ChartScript1.markerSizeFor, ChartScript1.fontSizeFor]

/-- Witness for C6: the root node "AgentSchema" of the literal tree data, at
declared level 0. -/
theorem level_tier_determined_witness :
    ∃ t, ChartScript1.levelTrace ChartScript1.nodes
        (ChartScript1.TNode.mk 0 5 0).level = some t ∧
      "AgentSchema" ∈ t.text.getD [] ∧
      t.markerSize = some (ChartScript1.markerSizeFor (ChartScript1.TNode.mk 0 5 0).level) ∧
      t.textFontSize = some (ChartScript1.fontSizeFor (ChartScript1.TNode.mk 0 5 0).level) ∧
      (((ChartScript1.TNode.mk 0 5 0).level = 0 ∧ t.markerSize = some 20 ∧ t.textFontSize = some 14) ∨
       ((ChartScript1.TNode.mk 0 5 0).level = 1 ∧ t.markerSize = some 15 ∧ t.textFontSize = some 11) ∨
       ((ChartScript1.TNode.mk 0 5 0).level = 2 ∧ t.markerSize = some 12 ∧ t.textFontSize = some 9)) ∧
      (ChartScript1.markerSizeFor 0 ≠ ChartScript1.markerSizeFor 1 ∧
       ChartScript1.markerSizeFor 0 ≠ ChartScript1.markerSizeFor 2 ∧
       ChartScript1.markerSizeFor 1 ≠ ChartScript1.markerSizeFor 2 ∧
       ChartScript1.fontSizeFor 0 ≠ ChartScript1.fontSizeFor 1 ∧
       ChartScript1.fontSizeFor 0 ≠ ChartScript1.fontSizeFor 2 ∧
       ChartScript1.fontSizeFor 1 ≠ ChartScript1.fontSizeFor 2) :=
  level_tier_determined ChartScript1.nodes "AgentSchema" ⟨0, 5, 0⟩
    (by decide) (by decide)

/-- C7 counterexample: the literal edge from "mastra_agent" (x = 800) to
"export_serializer" (x = 650) points leftward and downward, yet its arrowhead
trace carries the same fixed right-pointing marker symbol "triangle-right" as
the rightward edges — the marker symbol is not a function of the edge's
direction. -/
theorem arrow_symbol_counterexample :
    (⟨"mastra_agent", "export_serializer", "Export Request"⟩ : ChartScript.Edge) ∈
      ChartScript.data_edges ∧
    ChartScript.lookupPos ChartScript.data_nodes "mastra_agent" = some (800, 200) ∧
    ChartScript.lookupPos ChartScript.data_nodes "export_serializer" = some (650, 350) ∧
    (650 : ℚ) < 800 ∧
    (ChartScript.arrowTrace (800, 200) (650, 350)).markerSymbol = some "triangle-right" ∧
    (ChartScript.arrowTrace (50, 200) (200, 200)).markerSymbol = some "triangle-right" :=
  ⟨by decide, rfl, rfl, by decide, rfl, rfl⟩

/-- C7 (corrected): every marker-mode trace of a built flow figure — exactly
the arrowhead traces — carries the one fixed symbol "triangle-right",
regardless of the direction of its edge. -/
theorem arrow_symbol_fixed (ns : List ChartScript.Node) (es : List ChartScript.Edge)
    (f : List Trace) (hbuild : ChartScript.buildFlowFigure ns es = .ok f) :
    ∀ t ∈ f, t.mode = "markers" → t.markerSymbol = some "triangle-right" := by
  unfold ChartScript.buildFlowFigure at hbuild
  cases het : ChartScript.edgeTraces (ChartScript.lookupPos ns) es with
  | error err => simp only [het] at hbuild; exact absurd hbuild (by simp)
  | ok et =>
    simp only [het] at hbuild
    cases hnt : ChartScript.nodeTraces ChartScript.type_colors ns with
    | error err => simp only [hnt] at hbuild; exact absurd hbuild (by simp)
    | ok nt =>
      simp only [hnt] at hbuild
      have hf : f = ChartScript.dedupLegend [] (et ++ nt) := by
        injection hbuild with h
        exact h.symm
      subst hf
      intro t ht hmode
      obtain ⟨t0, h0, hsy, hmo⟩ := ChartScript.mem_dedupLegend_shape ht
      rcases List.mem_append.mp h0 with h | h
      · obtain ⟨p, q, hl | ha⟩ := ChartScript.mem_edgeTraces_shape het t0 h
        · rw [hl] at hmo
          have hlm : (ChartScript.lineTrace p q).mode = "lines" := rfl
          rw [hlm] at hmo
          rw [hmo] at hmode
          exact absurd hmode (by decide)
        · rw [ha] at hsy
          rw [hsy]
          rfl
      · obtain ⟨nd, color, hn⟩ := ChartScript.mem_nodeTraces_shape hnt t0 h
        rw [hn] at hmo
        have hnm : (ChartScript.nodeTrace nd color).mode = "markers+text" := rfl
        rw [hnm] at hmo
        rw [hmo] at hmode
        exact absurd hmode (by decide)

/-- Witness for C7: the figure built from the literal data, on which every
marker-mode trace carries the symbol "triangle-right". -/
theorem arrow_symbol_fixed_witness :
    ChartScript.buildFlowFigure ChartScript.data_nodes ChartScript.data_edges =
      .ok ChartScript.flowFigure ∧
    (∀ t ∈ ChartScript.flowFigure, t.mode = "markers" →
      t.markerSymbol = some "triangle-right") :=
  ⟨rfl, arrow_symbol_fixed ChartScript.data_nodes ChartScript.data_edges
    ChartScript.flowFigure rfl⟩
